import Mathlib

/-!
Verification of the PDF text-extraction workflow in src/index.py.

The program is sequential glue around four external collaborators
(fitz/PyMuPDF, pdf2image.convert_from_path, PIL.ImageEnhance,
pytesseract.image_to_string).  Each collaborator is modelled by the
outcome it reports back to the program, collected in an `Env` record;
the functions of the program (`pdf_to_images`, `preprocess_image`,
`extract_pdf_text`, `analyze_document`) are translated as pure
functions of that environment.  `sys.exit(1)` is modelled as
`Except.error ()`.
-/

namespace PdfOcr

/-- Bitmap page images (PIL `Image` values) are modelled as free terms
recording which operations produced them, since pixel contents are
irrelevant to the control flow under verification.  `raw n` is a decoded
page image as produced by `convert_from_path`; the other constructors
record the PIL calls used in `preprocess_image` (`convert("L")` and
`ImageEnhance.Contrast/Sharpness/Brightness(...).enhance(f)`), with the
enhancement factor stored in tenths (2.0 as 20, 1.1 as 11). -/
inductive PImage where
  | raw (id : Nat) : PImage
  | convertL (img : PImage) : PImage
  | contrast (tenths : Nat) (img : PImage) : PImage
  | sharpness (tenths : Nat) (img : PImage) : PImage
  | brightness (tenths : Nat) (img : PImage) : PImage
deriving DecidableEq

/-- Number of PIL operations stacked on top of a raw decoded image. -/
def PImage.depth : PImage → Nat
  | raw _ => 0
  | convertL i => i.depth + 1
  | contrast _ i => i.depth + 1
  | sharpness _ i => i.depth + 1
  | brightness _ i => i.depth + 1

/-- `preprocess_image` (src/index.py lines 87-112): grayscale conversion,
then contrast enhance 2.0, then sharpness enhance 2.0, then brightness
enhance 1.1; the derived image is returned. -/
def preprocess_image (img : PImage) : PImage :=
  PImage.brightness 11 (PImage.sharpness 20 (PImage.contrast 20 (PImage.convertL img)))

/-- The whitespace set of the Python method `str.strip()`. -/
def isPySpace (c : Char) : Bool :=
  c == ' ' || c == '\t' || c == '\n' || c == '\r' || c == '\x0b' || c == '\x0c'

/-- Python `s.strip()`: drop leading and trailing whitespace. -/
def pyStrip (s : String) : String :=
  String.mk (((s.data.dropWhile isPySpace).reverse.dropWhile isPySpace).reverse)

/-- Decimal digit list of `n`, most significant first, computed with
structural fuel (`fuel > n` suffices). -/
def natDigitsCore (fuel n : Nat) : List Char :=
  match fuel with
  | 0 => []
  | fuel + 1 =>
      if n < 10 then [Nat.digitChar n]
      else natDigitsCore fuel (n / 10) ++ [Nat.digitChar (n % 10)]

/-- Decimal rendering of `n`, as produced by Python `str(n)` or f-string
interpolation of a nonnegative integer. -/
def natStr (n : Nat) : String := String.mk (natDigitsCore (n + 1) n)

/-- Outcome of `fitz.open(pdf_path)` together with the per-page
`page.get_text()` calls inside the `try` block of `extract_pdf_text`
(lines 130-141).  `failOpen`: the open itself raised, nothing was
accumulated.  `failAt got`: an exception was raised mid-loop after the
page texts in `got` had already been appended.  `ok pages`: every page
yielded its text. -/
inductive OpenOutcome where
  | failOpen : OpenOutcome
  | failAt (got : List String) : OpenOutcome
  | ok (pages : List String) : OpenOutcome
deriving DecidableEq

/-- The responses of the external collaborators for one `pdf_path`:
the fitz text-layer read, the `pytesseract.get_tesseract_version` probe
(`tesseractOk = false` means `TesseractNotFoundError`), the
`convert_from_path` rasterization (`none` means it raised), and the
per-image `pytesseract.image_to_string` call (`none` means it raised). -/
structure Env where
  openResult : OpenOutcome
  tesseractOk : Bool
  convertResult : Option (List PImage)
  ocr : PImage → String → Option String

/-- `pdf_to_images` (lines 42-85).  On Linux/Mac the body is a single
`convert_from_path(pdf_path, dpi=dpi)` call; the Windows branch only
varies the `poppler_path` argument and feeds the same call, so its
outcome is the same `convertResult`.  An exception is caught and turned
into `sys.exit(1)` (modelled as `Except.error ()`); otherwise every page
of the result is appended to `images` and the list is returned, even
when it is empty - there is no emptiness check. -/
def pdf_to_images (env : Env) (dpi : Nat) : Except Unit (List PImage) :=
  let _ := dpi
  match env.convertResult with
  | none => Except.error ()
  | some pages => Except.ok pages

/-- The OCR configuration string built at line 183. -/
def ocrConfig (lang : String) : String := "--oem 1 --psm 3 -l " ++ lang

/-- One appended chunk: the f-string
`"--- Page {n} ---\n{body}\n\n"` used at lines 139 and 186. -/
def pageChunk (n : Nat) (body : String) : String :=
  "--- Page " ++ natStr n ++ " ---\n" ++ body ++ "\n\n"

/-- The per-page loop of the direct text extraction (lines 136-139),
as the string it appends to `text`; page numbering starts at `n`. -/
def directLoop : Nat → List String → String
  | _, [] => ""
  | n, t :: ts => pageChunk n t ++ directLoop (n + 1) ts

/-- The per-page OCR loop (lines 174-191), as the string it appends to
`text`: a successful `image_to_string` on the preprocessed image appends
a page chunk; an exception is caught, nothing is appended, and the loop
continues with the next page. -/
def ocrLoop (env : Env) (lang : String) : Nat → List PImage → String
  | _, [] => ""
  | i, img :: rest =>
      match env.ocr (preprocess_image img) (ocrConfig lang) with
      | some t => pageChunk i t ++ ocrLoop env lang (i + 1) rest
      | none => ocrLoop env lang (i + 1) rest

/-- Lines 156-192: the OCR half of `extract_pdf_text`, entered with the
`text` accumulated so far (the source keeps appending to the same `text`
variable).  A missing tesseract binary is `sys.exit(1)`; `pdf_to_images`
may itself exit; otherwise the OCR loop output is appended and the total
is returned. -/
def ocrStage (env : Env) (lang : String) (text : String) : Except Unit String :=
  if env.tesseractOk then
    match pdf_to_images env 300 with
    | Except.error e => Except.error e
    | Except.ok images => Except.ok (text ++ ocrLoop env lang 1 images)
  else Except.error ()

/-- `extract_pdf_text` (lines 114-192).  With `use_ocr_always` the direct
stage is skipped outright.  Otherwise the direct stage accumulates page
chunks into `text`; if the stripped length exceeds 50 that `text` is
returned, and in every other case (threshold not met, exception at open,
exception mid-loop) control falls through to the OCR half carrying the
current value of `text`. -/
def extract_pdf_text (env : Env) (lang : String) (use_ocr_always : Bool) :
    Except Unit String :=
  if use_ocr_always then
    ocrStage env lang ""
  else
    match env.openResult with
    | OpenOutcome.ok pages =>
        let text := directLoop 1 pages
        if 50 < (pyStrip text).length then Except.ok text
        else ocrStage env lang text
    | OpenOutcome.failOpen => ocrStage env lang ""
    | OpenOutcome.failAt got => ocrStage env lang (directLoop 1 got)

/-- The value of the `text` accumulator at the moment control reaches the
OCR half of `extract_pdf_text`, or `none` when the direct stage returned
early at line 145.  Mirrors lines 129-153. -/
def directFallbackText (env : Env) : Option String :=
  match env.openResult with
  | OpenOutcome.failOpen => some ""
  | OpenOutcome.failAt got => some (directLoop 1 got)
  | OpenOutcome.ok pages =>
      let text := directLoop 1 pages
      if 50 < (pyStrip text).length then none else some text

/-- Result record of `analyze_document`: the text handed back to the
caller, whether a write of the output file was attempted, and whether it
succeeded. -/
structure AnalyzeOutcome where
  text : String
  wroteAttempted : Bool
  wroteFile : Bool
deriving DecidableEq

/-- Python truthiness of the `output_txt` argument (`None` or a string):
`if output_txt:` is false for `None` and for the empty string. -/
def pyTruthy : Option String → Bool
  | none => false
  | some s => !s.isEmpty

/-- `analyze_document` (lines 194-236).  `fileExists` models
`os.path.exists(pdf_path)`; a missing file is `sys.exit(1)`.  `writeOk`
models whether opening and writing the output file succeeds; a failure
there is caught at lines 227-228, reported, and the text is still
returned. -/
def analyze_document (env : Env) (fileExists : Bool) (output_txt : Option String)
    (lang : String) (use_ocr_always : Bool) (writeOk : Bool) :
    Except Unit AnalyzeOutcome :=
  if fileExists then
    match extract_pdf_text env lang use_ocr_always with
    | Except.error e => Except.error e
    | Except.ok text =>
        if pyTruthy output_txt then Except.ok ⟨text, true, writeOk⟩
        else Except.ok ⟨text, false, false⟩
  else Except.error ()

/-- The characters of the page-header marker. -/
def headerPat : List Char := ['-', '-', '-', ' ', 'P', 'a', 'g', 'e', ' ']

/-- `patMatch p l` : `p` matches the front of `l`. -/
def patMatch : List Char → List Char → Bool
  | [], _ => true
  | _ :: _, [] => false
  | p :: ps, c :: cs => p == c && patMatch ps cs

/-- Numeric value of a decimal digit string, most significant first. -/
def digitsVal (l : List Char) : Nat :=
  l.foldl (fun a c => 10 * a + (c.toNat - 48)) 0

/-- Page numbers of all occurrences of the header marker in a character
list, scanning every position; at each occurrence the digit run
following the marker is read off. -/
def headerNums : List Char → List Nat
  | [] => []
  | c :: rest =>
      if patMatch headerPat (c :: rest) then
        digitsVal (((c :: rest).drop 9).takeWhile Char.isDigit) :: headerNums rest
      else headerNums rest

/-- Page numbers of the header markers occurring in a string. -/
def headersOf (s : String) : List Nat := headerNums s.data

/-- No occurrence of the header marker anywhere in the list. -/
def noPat : List Char → Bool
  | [] => true
  | c :: rest => !patMatch headerPat (c :: rest) && noPat rest

/-- A string free of the header marker. -/
def occFree (s : String) : Bool := noPat s.data

/-- The per-page OCR results when every page succeeds, `none` if any
`image_to_string` call raises. -/
def ocrTexts (env : Env) (lang : String) : List PImage → Option (List String)
  | [] => some []
  | img :: rest =>
      match env.ocr (preprocess_image img) (ocrConfig lang), ocrTexts env lang rest with
      | some t, some ts => some (t :: ts)
      | _, _ => none

/-- Positions (counted from `k`) of the images whose OCR call succeeds. -/
def successIdx (env : Env) (lang : String) : Nat → List PImage → List Nat
  | _, [] => []
  | k, img :: rest =>
      match env.ocr (preprocess_image img) (ocrConfig lang) with
      | some _ => k :: successIdx env lang (k + 1) rest
      | none => successIdx env lang (k + 1) rest

/-! Generic facts about string data, the marker scanner and decimal
rendering, used to settle the header-sequence claims. -/

lemma strData_append (s t : String) : (s ++ t).data = s.data ++ t.data := rfl

lemma natStr_data (n : Nat) : (natStr n).data = natDigitsCore (n + 1) n := rfl

lemma str_append_empty (s : String) : s ++ "" = s := by
  cases s with
  | mk d => show String.mk (d ++ []) = String.mk d
            rw [List.append_nil]

lemma str_empty_append (s : String) : "" ++ s = s := rfl

lemma patMatch_self (p x : List Char) : patMatch p (p ++ x) = true := by
  induction p with
  | nil => rfl
  | cons c cs ih => simp [patMatch, ih]

lemma patMatch_split : ∀ (a p b : List Char), patMatch p (a ++ b) = true →
    patMatch p a = true ∨ ∃ s, p = a ++ s ∧ s ≠ [] ∧ patMatch s b = true := by
  intro a
  induction a with
  | nil =>
      intro p b h
      cases p with
      | nil => exact Or.inl rfl
      | cons c cs => exact Or.inr ⟨c :: cs, rfl, by simp, h⟩
  | cons x xs ih =>
      intro p b h
      cases p with
      | nil => exact Or.inl rfl
      | cons y ys =>
          simp only [List.cons_append, patMatch, Bool.and_eq_true] at h
          obtain ⟨hyx, h2⟩ := h
          have hyxe : y = x := eq_of_beq hyx
          subst hyxe
          rcases ih ys b h2 with h3 | ⟨s, hps, hne, hs⟩
          · exact Or.inl (by simp [patMatch, h3])
          · subst hps
            exact Or.inr ⟨s, by simp, hne, hs⟩

lemma nl_not_mem_headerPat : '\n' ∉ headerPat := by decide

lemma patMatch_digit_head {c : Char} (hc : c.isDigit = true) (l : List Char) :
    patMatch headerPat (c :: l) = false := by
  have hne : ('-' == c) = false := by
    cases h : ('-' == c) with
    | false => rfl
    | true =>
        have hce : '-' = c := eq_of_beq h
        rw [← hce] at hc
        exact absurd hc (by decide)
  simp [headerPat, patMatch, hne]

lemma headerNums_cons_true {c : Char} {r : List Char}
    (h : patMatch headerPat (c :: r) = true) :
    headerNums (c :: r) =
      digitsVal (((c :: r).drop 9).takeWhile Char.isDigit) :: headerNums r := by
  simp [headerNums, h]

lemma headerNums_cons_false {c : Char} {r : List Char}
    (h : patMatch headerPat (c :: r) = false) :
    headerNums (c :: r) = headerNums r := by
  simp [headerNums, h]

lemma headerNums_digits_skip : ∀ (d l : List Char), (∀ c ∈ d, c.isDigit = true) →
    headerNums (d ++ l) = headerNums l := by
  intro d
  induction d with
  | nil => intro l _; rfl
  | cons c cs ih =>
      intro l hd
      have hc : c.isDigit = true := hd c (List.mem_cons_self c cs)
      rw [List.cons_append, headerNums_cons_false (patMatch_digit_head hc _)]
      exact ih l fun x hx => hd x (List.mem_cons_of_mem _ hx)

lemma headerNums_clean_nl : ∀ (a l : List Char), noPat a = true →
    headerNums (a ++ '\n' :: l) = headerNums ('\n' :: l) := by
  intro a
  induction a with
  | nil => intro l _; rfl
  | cons c cs ih =>
      intro l ha
      simp only [noPat, Bool.and_eq_true, Bool.not_eq_true'] at ha
      obtain ⟨h1, h2⟩ := ha
      have hfalse : patMatch headerPat (c :: (cs ++ '\n' :: l)) = false := by
        cases hm : patMatch headerPat (c :: (cs ++ '\n' :: l)) with
        | false => rfl
        | true =>
            have hm2 : patMatch headerPat ((c :: cs) ++ '\n' :: l) = true := hm
            rcases patMatch_split (c :: cs) headerPat ('\n' :: l) hm2 with hp | ⟨s, hps, hne, hs⟩
            · rw [h1] at hp
              exact absurd hp (by simp)
            · cases s with
              | nil => exact absurd rfl hne
              | cons s0 s1 =>
                  simp only [patMatch, Bool.and_eq_true] at hs
                  have hs0 : s0 = '\n' := eq_of_beq hs.1
                  subst hs0
                  have hmem : '\n' ∈ headerPat := by
                    rw [hps]
                    exact List.mem_append_right _ (List.mem_cons_self _ _)
                  exact absurd hmem nl_not_mem_headerPat
      rw [List.cons_append, headerNums_cons_false hfalse]
      exact ih l h2

lemma takeWhile_digits : ∀ (d l : List Char), (∀ c ∈ d, c.isDigit = true) →
    List.takeWhile Char.isDigit (d ++ ' ' :: l) = d := by
  intro d
  induction d with
  | nil => intro l _; rfl
  | cons c cs ih =>
      intro l hd
      have hc : c.isDigit = true := hd c (List.mem_cons_self c cs)
      simp [List.takeWhile_cons, hc]
      exact ih l fun x hx => hd x (List.mem_cons_of_mem _ hx)

lemma digitChar_isDigit {d : Nat} (hd : d < 10) : (Nat.digitChar d).isDigit = true := by
  interval_cases d <;> decide

lemma digitChar_toNat {d : Nat} (hd : d < 10) : (Nat.digitChar d).toNat = 48 + d := by
  interval_cases d <;> decide

lemma natDigitsCore_digits : ∀ (fuel n : Nat), n < fuel →
    ∀ c ∈ natDigitsCore fuel n, c.isDigit = true := by
  intro fuel
  induction fuel with
  | zero => intro n h; omega
  | succ f ih =>
      intro n h c hc
      by_cases h10 : n < 10
      · simp only [natDigitsCore, if_pos h10, List.mem_singleton] at hc
        subst hc
        exact digitChar_isDigit h10
      · simp only [natDigitsCore, if_neg h10, List.mem_append, List.mem_singleton] at hc
        rcases hc with hc | hc
        · have hlt : n / 10 < f := by
            have hs : n / 10 < n := Nat.div_lt_self (by omega) (by omega)
            omega
          exact ih (n / 10) hlt c hc
        · subst hc
          exact digitChar_isDigit (Nat.mod_lt n (by omega))

lemma digitsVal_append_one (a : List Char) (c : Char) :
    digitsVal (a ++ [c]) = 10 * digitsVal a + (c.toNat - 48) := by
  simp [digitsVal, List.foldl_append]

lemma digitsVal_natDigitsCore : ∀ (fuel n : Nat), n < fuel →
    digitsVal (natDigitsCore fuel n) = n := by
  intro fuel
  induction fuel with
  | zero => intro n h; omega
  | succ f ih =>
      intro n h
      by_cases h10 : n < 10
      · simp only [natDigitsCore, if_pos h10]
        have := digitChar_toNat h10
        simp [digitsVal, this]
      · simp only [natDigitsCore, if_neg h10]
        have hlt : n / 10 < f := by
          have hs : n / 10 < n := Nat.div_lt_self (by omega) (by omega)
          omega
        rw [digitsVal_append_one, ih (n / 10) hlt, digitChar_toNat (Nat.mod_lt n (by omega))]
        omega

/-! Marker mismatches at each position of a page chunk other than its
start, each decided within the concrete characters shown. -/

lemma pm_sp (l : List Char) : patMatch headerPat (' ' :: l) = false := rfl

lemma pm_P (l : List Char) : patMatch headerPat ('P' :: l) = false := rfl

lemma pm_a (l : List Char) : patMatch headerPat ('a' :: l) = false := rfl

lemma pm_g (l : List Char) : patMatch headerPat ('g' :: l) = false := rfl

lemma pm_e (l : List Char) : patMatch headerPat ('e' :: l) = false := rfl

lemma pm_nl (l : List Char) : patMatch headerPat ('\n' :: l) = false := rfl

lemma pm_dd_sp (l : List Char) : patMatch headerPat ('-' :: '-' :: ' ' :: l) = false := rfl

lemma pm_d_sp (l : List Char) : patMatch headerPat ('-' :: ' ' :: l) = false := rfl

lemma pm_ddd_nl (l : List Char) :
    patMatch headerPat ('-' :: '-' :: '-' :: '\n' :: l) = false := rfl

lemma pm_dd_nl (l : List Char) : patMatch headerPat ('-' :: '-' :: '\n' :: l) = false := rfl

lemma pm_d_nl (l : List Char) : patMatch headerPat ('-' :: '\n' :: l) = false := rfl

/-- Scanning one page chunk (in character form) followed by anything:
exactly one marker occurrence, reading back the page number `n`,
provided the body is marker-free. -/
lemma headerNums_seg (n : Nat) (body rest : List Char) (hb : noPat body = true) :
    headerNums ('-' :: '-' :: '-' :: ' ' :: 'P' :: 'a' :: 'g' :: 'e' :: ' ' ::
        (natDigitsCore (n + 1) n ++
          (' ' :: '-' :: '-' :: '-' :: '\n' :: (body ++ '\n' :: '\n' :: rest)))) =
      n :: headerNums rest := by
  have hD : ∀ c ∈ natDigitsCore (n + 1) n, c.isDigit = true :=
    natDigitsCore_digits (n + 1) n (Nat.lt_succ_self n)
  have hmatch : patMatch headerPat
      ('-' :: '-' :: '-' :: ' ' :: 'P' :: 'a' :: 'g' :: 'e' :: ' ' ::
        (natDigitsCore (n + 1) n ++
          (' ' :: '-' :: '-' :: '-' :: '\n' :: (body ++ '\n' :: '\n' :: rest)))) = true :=
    patMatch_self headerPat _
  rw [headerNums_cons_true hmatch]
  have hdrop : (('-' :: '-' :: '-' :: ' ' :: 'P' :: 'a' :: 'g' :: 'e' :: ' ' ::
      (natDigitsCore (n + 1) n ++
        (' ' :: '-' :: '-' :: '-' :: '\n' :: (body ++ '\n' :: '\n' :: rest)))).drop 9) =
      natDigitsCore (n + 1) n ++
        (' ' :: '-' :: '-' :: '-' :: '\n' :: (body ++ '\n' :: '\n' :: rest)) := rfl
  rw [hdrop, takeWhile_digits _ _ hD,
    digitsVal_natDigitsCore (n + 1) n (Nat.lt_succ_self n),
    headerNums_cons_false (pm_dd_sp _), headerNums_cons_false (pm_d_sp _),
    headerNums_cons_false (pm_sp _), headerNums_cons_false (pm_P _),
    headerNums_cons_false (pm_a _), headerNums_cons_false (pm_g _),
    headerNums_cons_false (pm_e _), headerNums_cons_false (pm_sp _),
    headerNums_digits_skip _ _ hD,
    headerNums_cons_false (pm_sp _), headerNums_cons_false (pm_ddd_nl _),
    headerNums_cons_false (pm_dd_nl _), headerNums_cons_false (pm_d_nl _),
    headerNums_cons_false (pm_nl _),
    headerNums_clean_nl body ('\n' :: rest) hb,
    headerNums_cons_false (pm_nl _), headerNums_cons_false (pm_nl _)]

lemma litPage_data : ("--- Page ").data = ['-', '-', '-', ' ', 'P', 'a', 'g', 'e', ' '] := rfl

lemma litTail_data : (" ---\n").data = [' ', '-', '-', '-', '\n'] := rfl

lemma litNlNl_data : ("\n\n").data = ['\n', '\n'] := rfl

/-- String-level form of `headerNums_seg`, for one `pageChunk`. -/
lemma headerNums_chunk (n : Nat) (body : String) (rest : List Char)
    (hb : occFree body = true) :
    headerNums ((pageChunk n body).data ++ rest) = n :: headerNums rest := by
  have hform : (pageChunk n body).data ++ rest =
      '-' :: '-' :: '-' :: ' ' :: 'P' :: 'a' :: 'g' :: 'e' :: ' ' ::
        (natDigitsCore (n + 1) n ++
          (' ' :: '-' :: '-' :: '-' :: '\n' :: (body.data ++ '\n' :: '\n' :: rest))) := by
    simp only [pageChunk, strData_append, natStr_data, litPage_data, litTail_data,
      litNlNl_data, List.append_assoc, List.cons_append, List.nil_append]
  rw [hform]
  exact headerNums_seg n body.data rest hb

/-- Header numbers of the direct-extraction loop output: exactly the
page positions `k, k+1, ...`, one per page, provided the embedded page
texts are marker-free. -/
lemma headerNums_directLoop : ∀ (ts : List String) (k : Nat) (rest : List Char),
    (∀ t ∈ ts, occFree t = true) →
    headerNums ((directLoop k ts).data ++ rest) =
      List.range' k ts.length ++ headerNums rest := by
  intro ts
  induction ts with
  | nil => intro k rest h; simp [directLoop, List.range']
  | cons t ts ih =>
      intro k rest h
      have hform : (directLoop k (t :: ts)).data ++ rest =
          (pageChunk k t).data ++ ((directLoop (k + 1) ts).data ++ rest) := by
        simp only [directLoop, strData_append, List.append_assoc]
      rw [hform, headerNums_chunk k t _ (h t (List.mem_cons_self _ _)),
        ih (k + 1) rest fun x hx => h x (List.mem_cons_of_mem _ hx)]
      simp [List.range'_succ]

/-- Header numbers of the OCR loop output: exactly the positions of the
pages whose OCR call succeeded, provided the OCR texts are marker-free.
A failing page contributes nothing at all. -/
lemma headerNums_ocrLoop (env : Env) (lang : String) :
    ∀ (imgs : List PImage) (k : Nat) (rest : List Char),
      (∀ img ∈ imgs, ∀ s, env.ocr (preprocess_image img) (ocrConfig lang) = some s →
        occFree s = true) →
      headerNums ((ocrLoop env lang k imgs).data ++ rest) =
        successIdx env lang k imgs ++ headerNums rest := by
  intro imgs
  induction imgs with
  | nil => intro k rest h; simp [ocrLoop, successIdx]
  | cons img imgs ih =>
      intro k rest h
      have hrec := ih (k + 1) rest fun x hx s hs => h x (List.mem_cons_of_mem _ hx) s hs
      cases hocr : env.ocr (preprocess_image img) (ocrConfig lang) with
      | none =>
          simp only [ocrLoop, successIdx, hocr]
          exact hrec
      | some t =>
          have ht : occFree t = true := h img (List.mem_cons_self _ _) t hocr
          simp only [ocrLoop, successIdx, hocr]
          have hform : (pageChunk k t ++ ocrLoop env lang (k + 1) imgs).data ++ rest =
              (pageChunk k t).data ++ ((ocrLoop env lang (k + 1) imgs).data ++ rest) := by
            simp only [strData_append, List.append_assoc]
          rw [hform, headerNums_chunk k t _ ht, hrec]
          simp [List.cons_append]

/-- When every OCR call succeeds, the success positions are the full
run `k, k+1, ...`, one per image. -/
lemma successIdx_all (env : Env) (lang : String) :
    ∀ (imgs : List PImage) (ts : List String), ocrTexts env lang imgs = some ts →
      ∀ k, successIdx env lang k imgs = List.range' k imgs.length := by
  intro imgs
  induction imgs with
  | nil => intro ts h k; simp [successIdx, List.range']
  | cons img imgs ih =>
      intro ts h k
      cases hocr : env.ocr (preprocess_image img) (ocrConfig lang) with
      | none =>
          simp only [ocrTexts, hocr] at h
          exact absurd h (by simp)
      | some t =>
          cases hrec : ocrTexts env lang imgs with
          | none =>
              simp only [ocrTexts, hocr, hrec] at h
              exact absurd h (by simp)
          | some ts2 =>
              simp only [successIdx, hocr]
              rw [ih ts2 hrec (k + 1)]
              simp [List.range'_succ]

/-- When every OCR call succeeds with the texts `ts` and those are all
marker-free, each individual success text is marker-free. -/
lemma ocrTexts_clean (env : Env) (lang : String) :
    ∀ (imgs : List PImage) (ts : List String), ocrTexts env lang imgs = some ts →
      (∀ t ∈ ts, occFree t = true) →
      ∀ img ∈ imgs, ∀ s, env.ocr (preprocess_image img) (ocrConfig lang) = some s →
        occFree s = true := by
  intro imgs
  induction imgs with
  | nil =>
      intro ts h hc img him
      exact absurd him (List.not_mem_nil img)
  | cons img0 imgs ih =>
      intro ts h hc img him s hs
      cases hocr : env.ocr (preprocess_image img0) (ocrConfig lang) with
      | none =>
          simp only [ocrTexts, hocr] at h
          exact absurd h (by simp)
      | some t =>
          cases hrec : ocrTexts env lang imgs with
          | none =>
              simp only [ocrTexts, hocr, hrec] at h
              exact absurd h (by simp)
          | some ts2 =>
              simp only [ocrTexts, hocr, hrec, Option.some.injEq] at h
              rcases List.mem_cons.mp him with rfl | hmem
              · rw [hocr, Option.some.injEq] at hs
                subst hs
                exact hc t (by rw [← h]; exact List.mem_cons_self _ _)
              · exact ih ts2 hrec
                  (fun x hx => hc x (by rw [← h]; exact List.mem_cons_of_mem _ hx))
                  img hmem s hs

/-- Whenever the direct stage falls through (its accumulator then being
`t`), `extract_pdf_text` continues with the OCR half carrying `t`. -/
lemma extract_eq_ocrStage_of_fallback (env : Env) (lang : String) (t : String)
    (hfb : directFallbackText env = some t) :
    extract_pdf_text env lang false = ocrStage env lang t := by
  cases hopen : env.openResult with
  | failOpen =>
      simp only [directFallbackText, hopen, Option.some.injEq] at hfb
      subst hfb
      simp [extract_pdf_text, hopen]
  | failAt got =>
      simp only [directFallbackText, hopen, Option.some.injEq] at hfb
      subst hfb
      simp [extract_pdf_text, hopen]
  | ok pages =>
      simp only [directFallbackText, hopen] at hfb
      by_cases hc : 50 < (pyStrip (directLoop 1 pages)).length
      · rw [if_pos hc] at hfb
        exact absurd hfb (by simp)
      · rw [if_neg hc] at hfb
        rw [Option.some.injEq] at hfb
        subst hfb
        simp [extract_pdf_text, hopen, hc]

/-- The OCR half, when tesseract is found and rasterization reports the
image list `imgs`, appends the OCR loop output to the incoming text. -/
lemma ocrStage_ok (env : Env) (lang : String) (t : String) (imgs : List PImage)
    (htess : env.tesseractOk = true) (hconv : env.convertResult = some imgs) :
    ocrStage env lang t = Except.ok (t ++ ocrLoop env lang 1 imgs) := by
  simp [ocrStage, pdf_to_images, htess, hconv]

/-! Claim theorems. -/

/-- C5: direct text extraction is considered successful exactly when the
stripped length of the accumulated text exceeds 50: above the threshold
`extract_pdf_text` returns the untrimmed concatenation of page chunks at
once (for every environment, in particular ones where entering the OCR
half would have aborted), and at or below it control passes to the OCR
half instead. -/
theorem extract_threshold_policy (env : Env) (lang : String) (pages : List String)
    (hopen : env.openResult = OpenOutcome.ok pages) :
    (50 < (pyStrip (directLoop 1 pages)).length →
      extract_pdf_text env lang false = Except.ok (directLoop 1 pages)) ∧
    (¬ 50 < (pyStrip (directLoop 1 pages)).length →
      extract_pdf_text env lang false = ocrStage env lang (directLoop 1 pages)) := by
  constructor
  · intro h
    simp [extract_pdf_text, hopen, h]
  · intro h
    simp [extract_pdf_text, hopen, h]

def w5text : String :=
  "This embedded page text is comfortably longer than fifty characters in total."

def envW5 : Env := ⟨OpenOutcome.ok [w5text], false, none, fun _ _ => none⟩

def envW5b : Env := ⟨OpenOutcome.ok [""], true, some [], fun _ _ => none⟩

/-- Witness for C5 at concrete environments on both sides of the
threshold (note `envW5` has no working tesseract and no rasterizer, so
the early return demonstrably never consults them). -/
theorem extract_threshold_policy_witness :
    50 < (pyStrip (directLoop 1 [w5text])).length ∧
    extract_pdf_text envW5 "eng" false = Except.ok (directLoop 1 [w5text]) ∧
    ¬ 50 < (pyStrip (directLoop 1 [""])).length ∧
    extract_pdf_text envW5b "eng" false = ocrStage envW5b "eng" (directLoop 1 [""]) :=
  ⟨by decide, (extract_threshold_policy envW5 "eng" [w5text] rfl).1 (by decide),
   by decide, (extract_threshold_policy envW5b "eng" [""] rfl).2 (by decide)⟩

/-- The OCR loop never consults the text-layer reading. -/
lemma ocrLoop_openResult_irrel : ∀ (imgs : List PImage) (o1 o2 : OpenOutcome)
    (tess : Bool) (conv : Option (List PImage)) (f : PImage → String → Option String)
    (lang : String) (k : Nat),
    ocrLoop ⟨o1, tess, conv, f⟩ lang k imgs = ocrLoop ⟨o2, tess, conv, f⟩ lang k imgs := by
  intro imgs
  induction imgs with
  | nil => intros; rfl
  | cons img imgs ih =>
      intro o1 o2 tess conv f lang k
      simp only [ocrLoop]
      cases hf : f (preprocess_image img) (ocrConfig lang) with
      | none => exact ih o1 o2 tess conv f lang (k + 1)
      | some t => rw [ih o1 o2 tess conv f lang (k + 1)]

/-- C6: with the force-OCR flag set, `extract_pdf_text` goes straight to
the OCR half with an empty accumulator, and its result does not depend
on the text-layer reading at all. -/
theorem force_ocr_skips_direct_stage (env : Env) (lang : String) :
    extract_pdf_text env lang true = ocrStage env lang "" ∧
    ∀ o1 o2 tess conv ocrF,
      extract_pdf_text ⟨o1, tess, conv, ocrF⟩ lang true =
        extract_pdf_text ⟨o2, tess, conv, ocrF⟩ lang true := by
  refine ⟨rfl, fun o1 o2 tess conv ocrF => ?_⟩
  show ocrStage ⟨o1, tess, conv, ocrF⟩ lang "" = ocrStage ⟨o2, tess, conv, ocrF⟩ lang ""
  cases tess with
  | false => rfl
  | true =>
      cases conv with
      | none => rfl
      | some imgs =>
          simp only [ocrStage, pdf_to_images]
          rw [ocrLoop_openResult_irrel imgs o1 o2 true (some imgs) ocrF lang 1]

/-- C7: `preprocess_image` applies exactly grayscale conversion, then
contrast 2.0, then sharpness 2.0, then brightness 1.1, in that order,
and returns a new derived image distinct from its input; it is a total
function with no error branch. -/
theorem preprocess_chain_exact (img : PImage) :
    preprocess_image img =
      PImage.brightness 11 (PImage.sharpness 20 (PImage.contrast 20 (PImage.convertL img))) ∧
    preprocess_image img ≠ img := by
  refine ⟨rfl, fun h => ?_⟩
  have hd := congrArg PImage.depth h
  simp only [preprocess_image, PImage.depth] at hd
  omega

/-- C8: when writing the output file fails, `analyze_document` catches
the failure, does not abort, and returns exactly the text it would have
returned had the write succeeded. -/
theorem write_failure_preserves_text (env : Env) (lang : String) (u : Bool)
    (o : Option String) (t : String)
    (hex : extract_pdf_text env lang u = Except.ok t)
    (ho : pyTruthy o = true) :
    analyze_document env true o lang u false = Except.ok ⟨t, true, false⟩ ∧
    Except.map AnalyzeOutcome.text (analyze_document env true o lang u false) =
      Except.map AnalyzeOutcome.text (analyze_document env true o lang u true) := by
  constructor <;> simp [analyze_document, hex, ho, Except.map]

def envW8 : Env := ⟨OpenOutcome.failOpen, true, some [], fun _ _ => none⟩

/-- Witness for C8 at a concrete environment. -/
theorem write_failure_preserves_text_witness :
    extract_pdf_text envW8 "eng" false = Except.ok "" ∧
    pyTruthy (some "out.txt") = true ∧
    analyze_document envW8 true (some "out.txt") "eng" false false =
      Except.ok ⟨"", true, false⟩ ∧
    Except.map AnalyzeOutcome.text (analyze_document envW8 true (some "out.txt") "eng" false false) =
      Except.map AnalyzeOutcome.text (analyze_document envW8 true (some "out.txt") "eng" false true) := by
  have h := write_failure_preserves_text envW8 "eng" false (some "out.txt") "" rfl rfl
  exact ⟨rfl, rfl, h.1, h.2⟩

/-- C10: for every falsy output path (including the empty string, not
only `None`), `analyze_document` attempts no file write at all and still
returns the extracted text. -/
theorem falsy_output_skips_write (env : Env) (lang : String) (u : Bool) (w : Bool)
    (o : Option String) (t : String)
    (hex : extract_pdf_text env lang u = Except.ok t)
    (ho : pyTruthy o = false) :
    analyze_document env true o lang u w = Except.ok ⟨t, false, false⟩ := by
  simp [analyze_document, hex, ho]

def envW10 : Env := ⟨OpenOutcome.failOpen, true, some [], fun _ _ => none⟩

/-- Witness for C10: both falsy forms of the output path, `none` and the
empty string, skip the write. -/
theorem falsy_output_skips_write_witness :
    extract_pdf_text envW10 "eng" false = Except.ok "" ∧
    pyTruthy (some "") = false ∧ pyTruthy none = false ∧
    analyze_document envW10 true (some "") "eng" false true = Except.ok ⟨"", false, false⟩ ∧
    analyze_document envW10 true none "eng" false true = Except.ok ⟨"", false, false⟩ := by
  have h1 := falsy_output_skips_write envW10 "eng" false true (some "") "" rfl rfl
  have h2 := falsy_output_skips_write envW10 "eng" false true none "" rfl rfl
  exact ⟨rfl, rfl, rfl, h1, h2⟩


def envC1 : Env :=
  ⟨OpenOutcome.ok [""], true, some [PImage.raw 0], fun _ _ => some "hello"⟩

/-- C1 counterexample: a one-page PDF whose only page has an empty text
layer falls back to OCR on the threshold test, yet the final result is
not the OCR-only text: the header chunk accumulated by the abandoned
direct stage is still there in front of it. -/
theorem fallback_discard_counterexample :
    extract_pdf_text envC1 "eng" false =
      Except.ok "--- Page 1 ---\n\n\n--- Page 1 ---\nhello\n\n" ∧
    "--- Page 1 ---\n\n\n--- Page 1 ---\nhello\n\n" ≠
      ocrLoop envC1 "eng" 1 [PImage.raw 0] :=
  ⟨rfl, by decide⟩

/-- C1 (amended): when the direct stage falls back to OCR, the partial
or empty text it accumulated is NOT discarded: the OCR page texts are
appended to it, and the final result is the direct-stage accumulator
followed by the OCR loop output (so it is OCR-only exactly when that
accumulator was empty, as after a failure of the open itself). -/
theorem fallback_appends_to_direct_text (env : Env) (lang : String) (t : String)
    (imgs : List PImage) (hfb : directFallbackText env = some t)
    (htess : env.tesseractOk = true) (hconv : env.convertResult = some imgs) :
    extract_pdf_text env lang false = Except.ok (t ++ ocrLoop env lang 1 imgs) := by
  rw [extract_eq_ocrStage_of_fallback env lang t hfb]
  exact ocrStage_ok env lang t imgs htess hconv

def envW1 : Env :=
  ⟨OpenOutcome.failAt ["short"], true, some [PImage.raw 3], fun _ _ => some "ocr text"⟩

/-- Witness for the amended C1: a mid-loop extraction failure retains
the page already accumulated and appends the OCR output to it. -/
theorem fallback_appends_to_direct_text_witness :
    directFallbackText envW1 = some (directLoop 1 ["short"]) ∧
    envW1.tesseractOk = true ∧
    envW1.convertResult = some [PImage.raw 3] ∧
    extract_pdf_text envW1 "eng" false =
      Except.ok (directLoop 1 ["short"] ++ ocrLoop envW1 "eng" 1 [PImage.raw 3]) :=
  ⟨rfl, rfl, rfl,
   fallback_appends_to_direct_text envW1 "eng" (directLoop 1 ["short"]) [PImage.raw 3]
     rfl rfl rfl⟩

def envC2 : Env :=
  ⟨OpenOutcome.ok [""], true, some [PImage.raw 7], fun _ _ => some "hello"⟩

/-- C2 counterexample: a one-page PDF with an empty text layer (well
under the threshold) is OCRed from one rasterized image, but the output
carries two header lines, not one - the direct-stage header survives. -/
theorem ocr_header_count_counterexample :
    extract_pdf_text envC2 "eng" false =
      Except.ok "--- Page 1 ---\n\n\n--- Page 1 ---\nhello\n\n" ∧
    ¬ 50 < (pyStrip (directLoop 1 [""])).length ∧
    envC2.convertResult = some [PImage.raw 7] ∧
    (headersOf "--- Page 1 ---\n\n\n--- Page 1 ---\nhello\n\n").length = 2 ∧
    [PImage.raw 7].length = 1 :=
  ⟨rfl, by decide, rfl, by decide, rfl⟩

/-- C2 (amended): when the threshold fallback fires and every OCR call
succeeds, the output is the direct-stage accumulator followed by the OCR
loop output, and its header numbers are the direct-stage run 1..P
followed by the OCR run 1..N (P = pages of the text layer, N = rasterized
images): the header count is P + N, and equals the image count N alone
only when the direct stage accumulated no pages. -/
theorem ocr_header_count_amended (env : Env) (lang : String) (pages : List String)
    (imgs : List PImage) (ts : List String)
    (hopen : env.openResult = OpenOutcome.ok pages)
    (hthr : ¬ 50 < (pyStrip (directLoop 1 pages)).length)
    (htess : env.tesseractOk = true)
    (hconv : env.convertResult = some imgs)
    (hpages : ∀ p ∈ pages, occFree p = true)
    (hocr : ocrTexts env lang imgs = some ts)
    (hts : ∀ t ∈ ts, occFree t = true) :
    extract_pdf_text env lang false =
      Except.ok (directLoop 1 pages ++ ocrLoop env lang 1 imgs) ∧
    headersOf (directLoop 1 pages ++ ocrLoop env lang 1 imgs) =
      List.range' 1 pages.length ++ List.range' 1 imgs.length := by
  constructor
  · have hfb : directFallbackText env = some (directLoop 1 pages) := by
      simp [directFallbackText, hopen, hthr]
    rw [extract_eq_ocrStage_of_fallback env lang _ hfb]
    exact ocrStage_ok env lang _ imgs htess hconv
  · have hclean := ocrTexts_clean env lang imgs ts hocr hts
    have h2 := headerNums_ocrLoop env lang imgs 1 [] hclean
    rw [successIdx_all env lang imgs ts hocr 1] at h2
    have h2e : headerNums ((ocrLoop env lang 1 imgs).data) = List.range' 1 imgs.length := by
      simpa [headerNums] using h2
    unfold headersOf
    rw [strData_append, headerNums_directLoop pages 1 _ hpages, h2e]

def envW2 : Env :=
  ⟨OpenOutcome.ok ["ab"], true, some [PImage.raw 0, PImage.raw 1], fun _ _ => some "x"⟩

/-- Witness for the amended C2: one under-threshold text-layer page plus
two successfully OCRed images give header runs [1] and [1, 2]. -/
theorem ocr_header_count_amended_witness :
    ¬ 50 < (pyStrip (directLoop 1 ["ab"])).length ∧
    ocrTexts envW2 "eng" [PImage.raw 0, PImage.raw 1] = some ["x", "x"] ∧
    extract_pdf_text envW2 "eng" false =
      Except.ok (directLoop 1 ["ab"] ++ ocrLoop envW2 "eng" 1 [PImage.raw 0, PImage.raw 1]) ∧
    headersOf (directLoop 1 ["ab"] ++ ocrLoop envW2 "eng" 1 [PImage.raw 0, PImage.raw 1]) =
      List.range' 1 1 ++ List.range' 1 2 := by
  have h := ocr_header_count_amended envW2 "eng" ["ab"] [PImage.raw 0, PImage.raw 1]
    ["x", "x"] rfl (by decide) rfl rfl (by decide) rfl (by decide)
  exact ⟨by decide, rfl, h.1, h.2⟩


def envC3 : Env :=
  ⟨OpenOutcome.failOpen, true, some [PImage.raw 1, PImage.raw 2, PImage.raw 3],
    fun img _ => if img = preprocess_image (PImage.raw 2) then none else some "W"⟩

/-- C3 counterexample: three rasterized pages with the OCR call raising
on page 2 alone.  The run is not aborted, but the output has only two
headers, 1 and 3: page 2 contributes no header with an empty body - it
is absent altogether. -/
theorem ocr_page_failure_counterexample :
    extract_pdf_text envC3 "eng" false =
      Except.ok "--- Page 1 ---\nW\n\n--- Page 3 ---\nW\n\n" ∧
    headersOf "--- Page 1 ---\nW\n\n--- Page 3 ---\nW\n\n" = [1, 3] ∧
    (headersOf "--- Page 1 ---\nW\n\n--- Page 3 ---\nW\n\n").length ≠ 3 :=
  ⟨rfl, by decide, by decide⟩

/-- C3 (amended): a per-page OCR failure does not abort the run -
`extract_pdf_text` still returns and the other pages are processed - but
the failing page is omitted from the output entirely (no header, no
body): the headers are exactly the positions of the succeeding pages, in
increasing order. -/
theorem ocr_page_failure_amended (env : Env) (lang : String) (imgs : List PImage)
    (hopen : env.openResult = OpenOutcome.failOpen)
    (htess : env.tesseractOk = true)
    (hconv : env.convertResult = some imgs)
    (hclean : ∀ img ∈ imgs, ∀ s, env.ocr (preprocess_image img) (ocrConfig lang) = some s →
      occFree s = true) :
    extract_pdf_text env lang false = Except.ok (ocrLoop env lang 1 imgs) ∧
    headersOf (ocrLoop env lang 1 imgs) = successIdx env lang 1 imgs := by
  constructor
  · have hfb : directFallbackText env = some "" := by
      simp [directFallbackText, hopen]
    rw [extract_eq_ocrStage_of_fallback env lang _ hfb,
      ocrStage_ok env lang _ imgs htess hconv, str_empty_append]
  · have h2 := headerNums_ocrLoop env lang imgs 1 [] hclean
    unfold headersOf
    simpa [headerNums] using h2

def envW3 : Env :=
  ⟨OpenOutcome.failOpen, true, some [PImage.raw 0, PImage.raw 1],
    fun img _ => if img = preprocess_image (PImage.raw 0) then none else some "ok"⟩

/-- Witness for the amended C3: two pages, OCR failing on the first;
the run returns with the single header of the succeeding page. -/
theorem ocr_page_failure_amended_witness :
    extract_pdf_text envW3 "eng" false =
      Except.ok (ocrLoop envW3 "eng" 1 [PImage.raw 0, PImage.raw 1]) ∧
    headersOf (ocrLoop envW3 "eng" 1 [PImage.raw 0, PImage.raw 1]) =
      successIdx envW3 "eng" 1 [PImage.raw 0, PImage.raw 1] := by
  refine ocr_page_failure_amended envW3 "eng" [PImage.raw 0, PImage.raw 1] rfl rfl rfl ?_
  intro img him s hs
  fin_cases him
  · simp [envW3] at hs
  · simp [envW3, preprocess_image] at hs
    rw [← hs]
    decide

def envC4 : Env := ⟨OpenOutcome.failOpen, true, some [], fun _ _ => none⟩

/-- C4 counterexample: a rasterization call that returns an empty image
sequence without raising is not treated as fatal: `pdf_to_images`
returns the empty list, and the whole extraction completes normally with
an empty result instead of exiting. -/
theorem empty_raster_counterexample :
    pdf_to_images envC4 300 = Except.ok [] ∧
    pdf_to_images envC4 300 ≠ Except.error () ∧
    extract_pdf_text envC4 "eng" false = Except.ok "" :=
  ⟨rfl, fun h => Except.noConfusion h, rfl⟩

/-- C4 (amended): a rasterization failure by exception is fatal
(`sys.exit(1)`), but an empty image sequence returned without raising is
not: `pdf_to_images` hands back exactly the images it was given, the
empty list included, and the OCR half then completes returning the
accumulated text unchanged with zero OCR pages. -/
theorem raster_failure_policy (env : Env) :
    (env.convertResult = none → pdf_to_images env 300 = Except.error ()) ∧
    (∀ imgs, env.convertResult = some imgs → pdf_to_images env 300 = Except.ok imgs) ∧
    (env.convertResult = some [] → env.tesseractOk = true →
      ∀ lang t, ocrStage env lang t = Except.ok t) := by
  refine ⟨fun h => by simp [pdf_to_images, h],
    fun imgs h => by simp [pdf_to_images, h],
    fun h ht lang t => ?_⟩
  rw [ocrStage_ok env lang t [] ht h]
  have hnil : ocrLoop env lang 1 [] = "" := rfl
  rw [hnil, str_append_empty]

def envW4 : Env := ⟨OpenOutcome.failOpen, true, none, fun _ _ => none⟩

def envW4b : Env := ⟨OpenOutcome.failOpen, true, some [], fun _ _ => none⟩

/-- Witness for the amended C4: a raising rasterizer exits, an empty
image list does not. -/
theorem raster_failure_policy_witness :
    pdf_to_images envW4 300 = Except.error () ∧
    pdf_to_images envW4b 300 = Except.ok [] ∧
    ocrStage envW4b "eng" "abc" = Except.ok "abc" :=
  ⟨(raster_failure_policy envW4).1 rfl,
   (raster_failure_policy envW4b).2.1 [] rfl,
   (raster_failure_policy envW4b).2.2 rfl rfl "eng" "abc"⟩

def envC9 : Env :=
  ⟨OpenOutcome.ok [""], true, some [PImage.raw 0], fun _ _ => some "body"⟩

/-- C9 counterexample: in the threshold-fallback output the header
numbers are [1, 1] - a duplicate, not a strictly increasing gap-free run
starting at 1. -/
theorem header_order_counterexample :
    extract_pdf_text envC9 "eng" false =
      Except.ok "--- Page 1 ---\n\n\n--- Page 1 ---\nbody\n\n" ∧
    headersOf "--- Page 1 ---\n\n\n--- Page 1 ---\nbody\n\n" = [1, 1] ∧
    ¬ (headersOf "--- Page 1 ---\n\n\n--- Page 1 ---\nbody\n\n" =
        List.range' 1 (headersOf "--- Page 1 ---\n\n\n--- Page 1 ---\nbody\n\n").length) :=
  ⟨rfl, by decide, by decide⟩

/-- C9 (amended): the headers form the strictly increasing gap-free run
1..N whenever the output comes from a single completed stage: the
direct-extraction success path, and the OCR path entered with an empty
accumulator (open failed) when every OCR call succeeds.  In the mixed
fallback output the direct-stage run is followed by an OCR run that
restarts at 1 (see the counterexample), and a failed OCR page is skipped
rather than kept in order. -/
theorem header_order_amended (env : Env) (lang : String) :
    (∀ pages, env.openResult = OpenOutcome.ok pages →
      50 < (pyStrip (directLoop 1 pages)).length →
      (∀ p ∈ pages, occFree p = true) →
      extract_pdf_text env lang false = Except.ok (directLoop 1 pages) ∧
      headersOf (directLoop 1 pages) = List.range' 1 pages.length) ∧
    (∀ imgs ts, env.openResult = OpenOutcome.failOpen →
      env.tesseractOk = true → env.convertResult = some imgs →
      ocrTexts env lang imgs = some ts → (∀ t ∈ ts, occFree t = true) →
      extract_pdf_text env lang false = Except.ok (ocrLoop env lang 1 imgs) ∧
      headersOf (ocrLoop env lang 1 imgs) = List.range' 1 imgs.length) := by
  constructor
  · intro pages hopen hthr hpages
    constructor
    · simp [extract_pdf_text, hopen, hthr]
    · have h1 := headerNums_directLoop pages 1 [] hpages
      unfold headersOf
      simpa [headerNums] using h1
  · intro imgs ts hopen htess hconv hocr hts
    have hclean := ocrTexts_clean env lang imgs ts hocr hts
    constructor
    · have hfb : directFallbackText env = some "" := by
        simp [directFallbackText, hopen]
      rw [extract_eq_ocrStage_of_fallback env lang _ hfb,
        ocrStage_ok env lang _ imgs htess hconv, str_empty_append]
    · have h2 := headerNums_ocrLoop env lang imgs 1 [] hclean
      rw [successIdx_all env lang imgs ts hocr 1] at h2
      unfold headersOf
      simpa [headerNums] using h2

def w9text : String :=
  "This embedded text layer is certainly longer than fifty characters overall."

def envW9a : Env := ⟨OpenOutcome.ok [w9text], false, none, fun _ _ => none⟩

def envW9b : Env := ⟨OpenOutcome.failOpen, true, some [PImage.raw 0], fun _ _ => some "x"⟩

/-- Witness for the amended C9 on both single-stage paths. -/
theorem header_order_amended_witness :
    extract_pdf_text envW9a "eng" false = Except.ok (directLoop 1 [w9text]) ∧
    headersOf (directLoop 1 [w9text]) = List.range' 1 1 ∧
    extract_pdf_text envW9b "eng" false = Except.ok (ocrLoop envW9b "eng" 1 [PImage.raw 0]) ∧
    headersOf (ocrLoop envW9b "eng" 1 [PImage.raw 0]) = List.range' 1 1 := by
  have ha := (header_order_amended envW9a "eng").1 [w9text] rfl (by decide) (by decide)
  have hb := (header_order_amended envW9b "eng").2 [PImage.raw 0] ["x"] rfl rfl rfl rfl
    (by decide)
  exact ⟨ha.1, ha.2, hb.1, hb.2⟩

end PdfOcr
